import Mathlib

/-!
Verification of the sitemap generation logic of this repository:
the city page fetcher/deduplicator (`getCitiesForSitemap`), the city
sitemap renderer (`generateCitySitemapXML`), the sitemap index handler
(`sitemap.xml.ts` GET), the dynamic chunk route handler, and the
site-configuration URL helpers (`getSiteURL`, `parseSubdomain`,
`getStateSubdomainURL`, `getCitySubdomainURL`).

The embedding is shallow: JS strings are Lean `String`s (character lists),
the database is a list of rows in the order the source yields them
(descending population), a batch query `range(a, b)` is `drop`/`take` on
that list, and JS exceptions / `{ data, error }` results are explicit
constructors.  `new Date()` values are passed in as abstract strings.
-/

/-- A city row as consumed by `getCitiesForSitemap`: the selected `name`
column together with the joined state abbreviation after the source's
coalescing `city.states?.abbreviation || ''` (a missing join is the empty
string). -/
structure Row where
  name : String
  state_abbr : String
deriving DecidableEq

/-- Site configuration visible to the sitemap code: the configured domain,
the `useSubdomains()` flag, the value returned by a successful
`getSiteURL()` call, and the external `createCitySlug` function (an
external collaborator of the repository, kept abstract). -/
structure SiteCfg where
  domain : String
  useSubdomainMode : Bool
  siteURL : String
  slug : String → String

/-- Model of JS `String.prototype.toLowerCase` for the ASCII strings this
code handles: lower-case every character. -/
def lowerStr (s : String) : String :=
  ⟨s.data.map Char.toLower⟩

/-- Embedding of `getCitySubdomainURL` from `site-config.ts`: path-based
fallback when subdomains are disabled, otherwise
`https://{citySlug}-{stateAbbr}.{domain}/`. -/
def getCitySubdomainURL (cfg : SiteCfg) (citySlug stateAbbr : String) : String :=
  if !cfg.useSubdomainMode then
    "https://" ++ cfg.domain ++ "/" ++ lowerStr stateAbbr ++ "/" ++ citySlug ++ "/"
  else
    "https://" ++ citySlug ++ "-" ++ lowerStr stateAbbr ++ "." ++ cfg.domain ++ "/"

/-- Embedding of `getStateSubdomainURL` from `site-config.ts`. -/
def getStateSubdomainURL (cfg : SiteCfg) (stateAbbr : String) : String :=
  if !cfg.useSubdomainMode then
    "https://" ++ cfg.domain ++ "/" ++ lowerStr stateAbbr ++ "/"
  else
    "https://" ++ lowerStr stateAbbr ++ "." ++ cfg.domain ++ "/"

/-- The canonical city URL exactly as `getCitiesForSitemap` and
`generateCitySitemapXML` compute it: slug the name, then either
`getCitySubdomainURL(citySlug, stateAbbr.toLowerCase())` or
`SITE_URL + "/" + stateAbbr.toLowerCase() + "/" + citySlug + "/"`. -/
def renderUrl (cfg : SiteCfg) (r : Row) : String :=
  let citySlug := cfg.slug r.name
  if cfg.useSubdomainMode then getCitySubdomainURL cfg citySlug (lowerStr r.state_abbr)
  else cfg.siteURL ++ "/" ++ lowerStr r.state_abbr ++ "/" ++ citySlug ++ "/"

/-- Batch size used by `getCitiesForSitemap` (`const pageSize = 1000`). -/
def pageSize : Nat := 1000

/-- Safety limit on fetched batches (`const maxPages = 50`). -/
def maxPages : Nat := 50

/-- Per-file URL capacity (`const URLS_PER_SITEMAP = 10000`). -/
def urlsPerSitemap : Nat := 10000

/-- Result of one supabase `range` query: either `{ error }` or
`{ data }`. -/
inductive FetchResult where
  | err
  | ok (data : List Row)

/-- The inner `for (const city of data)` loop of `getCitiesForSitemap`:
skip rows with an empty name or state abbreviation, render the canonical
URL, and append the row only when its URL is unseen, recording it. -/
def processBatch (cfg : SiteCfg) : List Row → List String → List Row → List String × List Row
  | [], seen, acc => (seen, acc)
  | r :: rs, seen, acc =>
    if r.name = "" ∨ r.state_abbr = "" then processBatch cfg rs seen acc
    else if renderUrl cfg r ∈ seen then processBatch cfg rs seen acc
    else processBatch cfg rs (renderUrl cfg r :: seen) (acc ++ [r])

/-- The batch-fetching `while` loop of `getCitiesForSitemap`.  The loop
body runs while `deduplicatedCities.length < offset + limit && page <
maxPages`; it breaks on a query error, on an empty batch, when enough
unique rows are accumulated, or when a batch is shorter than `pageSize`.
The `fuel` argument only bounds recursion; the caller passes `maxPages`,
which the `page < maxPages` guard makes sufficient. -/
def fetchLoop (cfg : SiteCfg) (fetch : Nat → FetchResult) (offset limit : Nat) :
    Nat → Nat → List String → List Row → List Row
  | 0, _, _, acc => acc
  | fuel + 1, page, seen, acc =>
    if acc.length < offset + limit ∧ page < maxPages then
      match fetch page with
      | .err => acc
      | .ok data =>
        if data.isEmpty then acc
        else
          let res := processBatch cfg data seen acc
          if offset + limit ≤ res.2.length ∨ data.length < pageSize then res.2
          else fetchLoop cfg fetch offset limit fuel (page + 1) res.1 res.2
    else acc

/-- Embedding of `getCitiesForSitemap` from `sitemap-utils.ts`.  The data
source is `none` when the `supabase` client is absent (the early
`if (!supabase) return` path); otherwise it maps a page index to that
batch's query result.  After the loop the requested window
`slice(offset, offset + limit)` of the deduplicated sequence is returned. -/
def getCitiesForSitemap (cfg : SiteCfg) (src : Option (Nat → FetchResult))
    (offset limit : Nat) : List Row :=
  match src with
  | none => []
  | some fetch =>
    ((fetchLoop cfg fetch offset limit maxPages 0 [] []).drop offset).take limit

/-- A stable database source: page `p` of the `cities` query is rows
`[p * pageSize, (p+1) * pageSize - 1]` of the ranked row list `db`;
when `errorFrom = some e`, every query from page `e` on reports an
error (a data-source failure mid-fetch). -/
def dbFetch (db : List Row) (errorFrom : Option Nat) (page : Nat) : FetchResult :=
  match errorFrom with
  | some e =>
    if e ≤ page then .err
    else .ok ((db.drop (page * pageSize)).take pageSize)
  | none => .ok ((db.drop (page * pageSize)).take pageSize)

/-- Modelled from the spec: the accumulating deduplicated sequence, as
described in section 4.2 — skip rows with an empty name or abbreviation,
discard rows whose canonical URL was already produced, keep the rest in
source order.  Used to compare the loop of `getCitiesForSitemap` against
its specification. -/
def dedupAux (cfg : SiteCfg) (seen : List String) : List Row → List Row
  | [] => []
  | r :: rs =>
    if r.name = "" ∨ r.state_abbr = "" then dedupAux cfg seen rs
    else if renderUrl cfg r ∈ seen then dedupAux cfg seen rs
    else r :: dedupAux cfg (renderUrl cfg r :: seen) rs

/-- The seen-URL set after deduplicating a row list, matching `dedupAux`. -/
def seenAfter (cfg : SiteCfg) (seen : List String) : List Row → List String
  | [] => seen
  | r :: rs =>
    if r.name = "" ∨ r.state_abbr = "" then seenAfter cfg seen rs
    else if renderUrl cfg r ∈ seen then seenAfter cfg seen rs
    else seenAfter cfg (renderUrl cfg r :: seen) rs

/-- The deduplicated sequence the fetcher can ever accumulate: the safety
cap bounds it to the first `maxPages * pageSize` ranked rows. -/
def accumulatedDedup (cfg : SiteCfg) (db : List Row) : List Row :=
  dedupAux cfg [] (db.take (maxPages * pageSize))

/-- One emitted `<url>` block of a city sitemap document. -/
structure UrlEntry where
  loc : String
  lastmod : String
  changefreq : String
  priority : String
deriving DecidableEq

/-- The emission loop of `generateCitySitemapXML`: one `<url>` entry per
city (changefreq `weekly`, priority `0.8`), defensively skipping any city
whose rendered URL was already emitted in this document. -/
def cityEntriesAux (cfg : SiteCfg) (today : String) (seen : List String) :
    List Row → List UrlEntry
  | [] => []
  | c :: cs =>
    if renderUrl cfg c ∈ seen then cityEntriesAux cfg today seen cs
    else ⟨renderUrl cfg c, today, "weekly", "0.8"⟩ ::
      cityEntriesAux cfg today (renderUrl cfg c :: seen) cs

/-- Embedding of `generateCitySitemapXML` at the level of its emitted
`<url>` entries (the XML text around them is fixed boilerplate). -/
def generateCitySitemapEntries (cfg : SiteCfg) (today : String) (cities : List Row) :
    List UrlEntry :=
  cityEntriesAux cfg today [] cities

/-- The `<loc>` values of one emitted city-chunk document. -/
def citySitemapLocs (cfg : SiteCfg) (today : String) (cities : List Row) : List String :=
  (generateCitySitemapEntries cfg today cities).map UrlEntry.loc

/-- Result of the `cities` head-count query of the index handler: the
source is `none` when `supabase` is absent, `some (.error ())` when the
query throws, and `some (.ok c)` on success, where `c` is the possibly
null `count`. -/
abbrev CountResult := Except Unit (Option Nat)

/-- The sitemap count estimator of section 4.1, as inlined in the index
handler: `Math.ceil(totalRows / capacity)` clamped to `[1, 10]`.  For a
positive capacity the JS float ceiling of the quotient is
`(totalRows + capacity - 1) / capacity` in natural division. -/
def estimateFileCount (totalRows capacity : Nat) : Nat :=
  max 1 (min ((totalRows + capacity - 1) / capacity) 10)

/-- The `citySitemapCount` computation of the index handler
(`sitemap.xml.ts`): default 4, replaced by the clamped ceiling only when
the count query succeeds with a non-null count; a thrown query error is
caught and keeps the default. -/
def computeFileCount (src : Option CountResult) : Nat :=
  match src with
  | none => 4
  | some (.error _) => 4
  | some (.ok none) => 4
  | some (.ok (some count)) => estimateFileCount count urlsPerSitemap

/-- The `<sitemap>` entries (location, lastmod) of the sitemap index
document: the `main` file first, then `sitemap-i.xml` for
`i = 2 .. fileCount + 1`. -/
def sitemapIndexEntries (siteURL today : String) (fileCount : Nat) :
    List (String × String) :=
  (siteURL ++ "/sitemap-main.xml", today) ::
    (List.range' 2 fileCount).map
      (fun i => (siteURL ++ "/sitemap-" ++ toString i ++ ".xml", today))

/-- JS whitespace skipped by `parseInt` before parsing. -/
def jsWhitespace (c : Char) : Bool :=
  c = ' ' ∨ c = '\t' ∨ c = '\n' ∨ c = '\r'

/-- Numeric value of a digit list read left to right. -/
def digitsToNat (ds : List Char) : Nat :=
  ds.foldl (fun a c => 10 * a + (c.toNat - 48)) 0

/-- Model of JS `parseInt(s, 10)`: skip leading whitespace, read an
optional sign and then the longest digit prefix; `none` is `NaN` (no
digits found). -/
def jsParseInt (s : String) : Option Int :=
  let cs := s.data.dropWhile jsWhitespace
  match cs with
  | '-' :: t =>
    let ds := t.takeWhile Char.isDigit
    if ds.isEmpty then none else some (-(digitsToNat ds : Int))
  | '+' :: t =>
    let ds := t.takeWhile Char.isDigit
    if ds.isEmpty then none else some (digitsToNat ds : Int)
  | _ =>
    let ds := cs.takeWhile Char.isDigit
    if ds.isEmpty then none else some (digitsToNat ds : Int)

/-- JS `num || '2'`: an absent or empty (falsy) route parameter falls back
to the string `"2"`. -/
def jsOrDefault (num : Option String) : String :=
  match num with
  | none => "2"
  | some s => if s = "" then "2" else s

/-- Outcome of the dynamic sitemap route: the static/state document, a
city chunk document for `sitemap-n.xml`, or the 404 response
`Invalid sitemap number`. -/
inductive RouteResponse where
  | mainDoc
  | cityChunk (n : Int)
  | notFound
deriving DecidableEq

/-- Embedding of the dynamic route handler's dispatch on `params.num`:
`"main"` serves the static/state document; otherwise
`parseInt(num || '2', 10)` must produce an integer at least 2, else 404.
A successful parse `n` serves the chunk at offset
`(n - 2) * URLS_PER_SITEMAP`. -/
def handleSitemapNum (num : Option String) : RouteResponse :=
  if num = some "main" then .mainDoc
  else
    match jsParseInt (jsOrDefault num) with
    | none => .notFound
    | some n => if n < 2 then .notFound else .cityChunk n

/-- HTTP status of a route outcome (both documents are served with 200). -/
def routeStatus : RouteResponse → Nat
  | .mainDoc => 200
  | .cityChunk _ => 200
  | .notFound => 404

/-- Model of JS `String.prototype.includes`: some suffix of `s` starts
with `sub`. -/
def strContains (s sub : String) : Bool :=
  (List.range (s.data.length + 1)).any (fun i => sub.data.isPrefixOf (s.data.drop i))

/-- Embedding of `getSiteURL` from `site-config.ts`: refuse (throw) when
the domain is unset, the literal placeholder, or contains `example`;
otherwise return `https://{domain}`. -/
def getSiteURL (domain : String) : Except String String :=
  if domain = "" ∨ domain = "example.com" ∨ strContains domain "example" then
    .error ("Domain not properly configured for site. Expected unique domain, got: " ++ domain)
  else
    .ok ("https://" ++ domain)

/-- Model of JS `String.prototype.replace(needle, '')`: remove the first
occurrence of `needle`, or return the list unchanged when absent. -/
def replaceFirst (needle : List Char) : List Char → List Char
  | [] => []
  | c :: t =>
    if needle.isPrefixOf (c :: t) then (c :: t).drop needle.length
    else c :: replaceFirst needle t

/-- Model of JS `String.prototype.lastIndexOf` for a single character:
the index of its last occurrence, if any. -/
def lastIdx (c : Char) : List Char → Option Nat
  | [] => none
  | a :: t =>
    match lastIdx c t with
    | some i => some (i + 1)
    | none => if a = c then some 0 else none

/-- A parsed `{city, state}` pair extracted from a subdomain. -/
structure CityState where
  city : String
  state : String
deriving DecidableEq

/-- Embedding of `parseSubdomain` from `site-config.ts`: strip a port,
lower-case, require the `.{domain}` suffix, strip the first occurrence of
`.{domain}`, reject `www` and empty subdomains, split at the last hyphen,
and require a two-character state part. -/
def parseSubdomain (cfg : SiteCfg) (hostname : String) : Option CityState :=
  if !cfg.useSubdomainMode then none
  else
    let host := (hostname.data.takeWhile (· ≠ ':')).map Char.toLower
    if !(('.' :: cfg.domain.data).isSuffixOf host) then none
    else
      let subdomain := replaceFirst ('.' :: cfg.domain.data) host
      if subdomain = "www".data ∨ subdomain = [] then none
      else
        match lastIdx '-' subdomain with
        | none => none
        | some i =>
          let citySlug := subdomain.take i
          let stateAbbr := subdomain.drop (i + 1)
          if stateAbbr.length ≠ 2 then none
          else some ⟨⟨citySlug⟩, ⟨stateAbbr.map Char.toLower⟩⟩

/-- Hostname of an `https://` URL: the text between the scheme and the
first `/` of the path. -/
def urlHostname (url : String) : String :=
  ⟨(url.data.drop 8).takeWhile (· ≠ '/')⟩

theorem processBatch_eq (cfg : SiteCfg) (data : List Row) :
    ∀ seen acc, processBatch cfg data seen acc =
      (seenAfter cfg seen data, acc ++ dedupAux cfg seen data) := by
  induction data with
  | nil => intro seen acc; simp [processBatch, seenAfter, dedupAux]
  | cons r rs ih =>
    intro seen acc
    by_cases h1 : r.name = "" ∨ r.state_abbr = ""
    · simp [processBatch, seenAfter, dedupAux, h1, ih]
    · by_cases h2 : renderUrl cfg r ∈ seen
      · simp [processBatch, seenAfter, dedupAux, h1, h2, ih]
      · simp [processBatch, seenAfter, dedupAux, h1, h2, ih]

theorem dedupAux_append (cfg : SiteCfg) (xs ys : List Row) :
    ∀ seen, dedupAux cfg seen (xs ++ ys) =
      dedupAux cfg seen xs ++ dedupAux cfg (seenAfter cfg seen xs) ys := by
  induction xs with
  | nil => intro seen; simp [dedupAux, seenAfter]
  | cons r rs ih =>
    intro seen
    by_cases h1 : r.name = "" ∨ r.state_abbr = ""
    · simp [dedupAux, seenAfter, h1, ih]
    · by_cases h2 : renderUrl cfg r ∈ seen
      · simp [dedupAux, seenAfter, h1, h2, ih]
      · simp [dedupAux, seenAfter, h1, h2, ih]

theorem seenAfter_append (cfg : SiteCfg) (xs ys : List Row) :
    ∀ seen, seenAfter cfg seen (xs ++ ys) =
      seenAfter cfg (seenAfter cfg seen xs) ys := by
  induction xs with
  | nil => intro seen; simp [seenAfter]
  | cons r rs ih =>
    intro seen
    by_cases h1 : r.name = "" ∨ r.state_abbr = ""
    · simp [seenAfter, h1, ih]
    · by_cases h2 : renderUrl cfg r ∈ seen
      · simp [seenAfter, h1, h2, ih]
      · simp [seenAfter, h1, h2, ih]

theorem dedupAux_sublist (cfg : SiteCfg) (rows : List Row) :
    ∀ seen, List.Sublist (dedupAux cfg seen rows) rows := by
  induction rows with
  | nil => intro seen; simp [dedupAux]
  | cons r rs ih =>
    intro seen
    by_cases h1 : r.name = "" ∨ r.state_abbr = ""
    · simpa [dedupAux, h1] using (ih seen).cons r
    · by_cases h2 : renderUrl cfg r ∈ seen
      · simpa [dedupAux, h1, h2] using (ih seen).cons r
      · simpa [dedupAux, h1, h2] using (ih _).cons₂ r

theorem dedupAux_mem_ne_empty (cfg : SiteCfg) (rows : List Row) :
    ∀ seen, ∀ r ∈ dedupAux cfg seen rows, r.name ≠ "" ∧ r.state_abbr ≠ "" := by
  induction rows with
  | nil => intro seen r hr; simp [dedupAux] at hr
  | cons x xs ih =>
    intro seen r hr
    by_cases h1 : x.name = "" ∨ x.state_abbr = ""
    · exact ih seen r (by simpa [dedupAux, h1] using hr)
    · by_cases h2 : renderUrl cfg x ∈ seen
      · exact ih seen r (by simpa [dedupAux, h1, h2] using hr)
      · rw [dedupAux, if_neg h1, if_neg h2] at hr
        rcases List.mem_cons.mp hr with rfl | hr
        · exact ⟨fun h => h1 (Or.inl h), fun h => h1 (Or.inr h)⟩
        · exact ih _ r hr

theorem dedupAux_mem_not_seen (cfg : SiteCfg) (rows : List Row) :
    ∀ seen, ∀ r ∈ dedupAux cfg seen rows, renderUrl cfg r ∉ seen := by
  induction rows with
  | nil => intro seen r hr; simp [dedupAux] at hr
  | cons x xs ih =>
    intro seen r hr
    by_cases h1 : x.name = "" ∨ x.state_abbr = ""
    · exact ih seen r (by simpa [dedupAux, h1] using hr)
    · by_cases h2 : renderUrl cfg x ∈ seen
      · exact ih seen r (by simpa [dedupAux, h1, h2] using hr)
      · rw [dedupAux, if_neg h1, if_neg h2] at hr
        rcases List.mem_cons.mp hr with rfl | hr
        · exact h2
        · intro hs
          exact ih _ r hr (List.mem_cons_of_mem _ hs)

theorem dedupAux_nodup (cfg : SiteCfg) (rows : List Row) :
    ∀ seen, ((dedupAux cfg seen rows).map (renderUrl cfg)).Nodup := by
  induction rows with
  | nil => intro seen; simp [dedupAux]
  | cons x xs ih =>
    intro seen
    by_cases h1 : x.name = "" ∨ x.state_abbr = ""
    · simpa [dedupAux, h1] using ih seen
    · by_cases h2 : renderUrl cfg x ∈ seen
      · simpa [dedupAux, h1, h2] using ih seen
      · rw [dedupAux, if_neg h1, if_neg h2]
        rw [List.map_cons, List.nodup_cons]
        refine ⟨?_, ih _⟩
        intro hmem
        obtain ⟨r, hr, hre⟩ := List.mem_map.mp hmem
        have := dedupAux_mem_not_seen cfg xs _ r hr
        exact this (hre ▸ List.mem_cons_self _ _)

theorem prefix_slice_eq {p q : List Row} (h : p <+: q) {o l : Nat}
    (hl : o + l ≤ p.length) : (p.drop o).take l = (q.drop o).take l := by
  obtain ⟨t, rfl⟩ := h
  have ho : o ≤ p.length := le_trans (Nat.le_add_right o l) hl
  rw [List.drop_append_eq_append_drop, Nat.sub_eq_zero_of_le ho, List.drop_zero,
    List.take_append_eq_append_take]
  have h2 : l - (p.drop o).length = 0 := by
    simp only [List.length_drop]
    omega
  rw [h2, List.take_zero, List.append_nil]

theorem dedupAux_prefix_mono (cfg : SiteCfg) {x y : List Row} (h : x <+: y) :
    dedupAux cfg [] x <+: dedupAux cfg [] y := by
  obtain ⟨t, rfl⟩ := h
  rw [dedupAux_append]
  exact ⟨_, rfl⟩

theorem fetchLoop_dbFetch_spec (cfg : SiteCfg) (db : List Row) (o l : Nat) :
    ∀ fuel page, maxPages ≤ fuel + page → page ≤ maxPages →
      ((fetchLoop cfg (dbFetch db none) o l fuel page
          (seenAfter cfg [] (db.take (page * pageSize)))
          (dedupAux cfg [] (db.take (page * pageSize)))).drop o).take l
        = ((accumulatedDedup cfg db).drop o).take l := by
  intro fuel
  induction fuel with
  | zero =>
    intro page h1 h2
    have hp : page = maxPages := le_antisymm h2 (by omega)
    subst hp
    rfl
  | succ fuel ih =>
    intro page h1 h2
    by_cases hcond :
        (dedupAux cfg [] (db.take (page * pageSize))).length < o + l ∧ page < maxPages
    · rw [fetchLoop, if_pos hcond]
      simp only [dbFetch]
      by_cases hemp : ((db.drop (page * pageSize)).take pageSize).isEmpty
      · rw [if_pos hemp]
        have hnil : (db.drop (page * pageSize)).take pageSize = [] :=
          List.isEmpty_iff.mp hemp
        rcases List.take_eq_nil_iff.mp hnil with hps | hdrop
        · exact absurd hps (by simp [pageSize])
        · have hlen : db.length ≤ page * pageSize := List.drop_eq_nil_iff.mp hdrop
          have e1 : db.take (page * pageSize) = db := List.take_of_length_le hlen
          have e2 : db.take (maxPages * pageSize) = db :=
            List.take_of_length_le (le_trans hlen (Nat.mul_le_mul_right _ h2))
          rw [accumulatedDedup, e1, e2]
      · rw [if_neg hemp]
        simp only [processBatch_eq]
        have hacc : dedupAux cfg [] (db.take (page * pageSize)) ++
            dedupAux cfg (seenAfter cfg [] (db.take (page * pageSize)))
              ((db.drop (page * pageSize)).take pageSize)
            = dedupAux cfg [] (db.take ((page + 1) * pageSize)) := by
          rw [Nat.succ_mul, List.take_add, dedupAux_append]
        have hseen : seenAfter cfg (seenAfter cfg [] (db.take (page * pageSize)))
              ((db.drop (page * pageSize)).take pageSize)
            = seenAfter cfg [] (db.take ((page + 1) * pageSize)) := by
          rw [Nat.succ_mul, List.take_add, seenAfter_append]
        by_cases hstop : o + l ≤ (dedupAux cfg [] (db.take (page * pageSize)) ++
              dedupAux cfg (seenAfter cfg [] (db.take (page * pageSize)))
                ((db.drop (page * pageSize)).take pageSize)).length ∨
            ((db.drop (page * pageSize)).take pageSize).length < pageSize
        · rw [if_pos hstop]
          rw [hacc]
          rcases hstop with hlen | hshort
          · rw [hacc] at hlen
            refine prefix_slice_eq ?_ hlen
            exact dedupAux_prefix_mono cfg
              (List.take_prefix_take_left db (Nat.mul_le_mul_right _ hcond.2))
          · have hdlen : db.length < (page + 1) * pageSize := by
              rw [List.length_take, List.length_drop] at hshort
              have hmul : (page + 1) * pageSize = page * pageSize + pageSize := by
                ring
              omega
            have e1 : db.take ((page + 1) * pageSize) = db :=
              List.take_of_length_le (Nat.le_of_lt hdlen)
            have e2 : db.take (maxPages * pageSize) = db :=
              List.take_of_length_le
                (le_trans (Nat.le_of_lt hdlen) (Nat.mul_le_mul_right _ hcond.2))
            rw [accumulatedDedup, e1, e2]
        · rw [if_neg hstop]
          rw [hacc, hseen]
          exact ih (page + 1) (by omega) hcond.2
    · rw [fetchLoop, if_neg hcond]
      by_cases hlen : o + l ≤ (dedupAux cfg [] (db.take (page * pageSize))).length
      · refine prefix_slice_eq ?_ hlen
        exact dedupAux_prefix_mono cfg
          (List.take_prefix_take_left db (Nat.mul_le_mul_right _ h2))
      · have hp : page = maxPages := by
          rcases Decidable.not_and_iff_or_not.mp hcond with h | h
          · omega
          · omega
        subst hp
        rfl

theorem getCitiesForSitemap_eq_slice (cfg : SiteCfg) (db : List Row) (o l : Nat) :
    getCitiesForSitemap cfg (some (dbFetch db none)) o l
      = ((accumulatedDedup cfg db).drop o).take l := by
  have h := fetchLoop_dbFetch_spec cfg db o l maxPages 0 (by omega) (by omega)
  simpa [getCitiesForSitemap, dedupAux, seenAfter] using h

theorem fetchLoop_error_eq_trunc (cfg : SiteCfg) (db : List Row) (e o l : Nat) :
    ∀ fuel page seen acc,
      fetchLoop cfg (dbFetch db (some e)) o l fuel page seen acc
        = fetchLoop cfg (dbFetch (db.take (e * pageSize)) none) o l fuel page seen acc := by
  intro fuel
  induction fuel with
  | zero => intro page seen acc; rfl
  | succ fuel ih =>
    intro page seen acc
    by_cases hcond : acc.length < o + l ∧ page < maxPages
    · by_cases he : e ≤ page
      · have hnil : ((db.take (e * pageSize)).drop (page * pageSize)).take pageSize = [] := by
          have hd : (db.take (e * pageSize)).drop (page * pageSize) = [] := by
            apply List.drop_eq_nil_of_le
            calc (db.take (e * pageSize)).length
                ≤ e * pageSize := List.length_take_le _ _
              _ ≤ page * pageSize := Nat.mul_le_mul_right _ he
          rw [hd, List.take_nil]
        rw [fetchLoop, fetchLoop, if_pos hcond, if_pos hcond]
        simp only [dbFetch, if_pos he, hnil, List.isEmpty_nil, if_pos]
      · have hlt : page < e := Nat.lt_of_not_le he
        have hdata : ((db.take (e * pageSize)).drop (page * pageSize)).take pageSize
            = (db.drop (page * pageSize)).take pageSize := by
          rw [List.drop_take, List.take_take]
          congr 1
          have h1 : page * pageSize + pageSize ≤ e * pageSize := by
            have h2 : (page + 1) * pageSize ≤ e * pageSize :=
              Nat.mul_le_mul_right _ hlt
            have h3 : (page + 1) * pageSize = page * pageSize + pageSize := by ring
            omega
          omega
        rw [fetchLoop, fetchLoop, if_pos hcond, if_pos hcond]
        simp only [dbFetch, if_neg he, hdata]
        by_cases hemp : ((db.drop (page * pageSize)).take pageSize).isEmpty
        · rw [if_pos hemp, if_pos hemp]
        · rw [if_neg hemp, if_neg hemp]
          by_cases hstop : o + l ≤
              (processBatch cfg ((db.drop (page * pageSize)).take pageSize) seen acc).2.length ∨
              ((db.drop (page * pageSize)).take pageSize).length < pageSize
          · rw [if_pos hstop, if_pos hstop]
          · rw [if_neg hstop, if_neg hstop]
            exact ih _ _ _
    · rw [fetchLoop, fetchLoop, if_neg hcond, if_neg hcond]

/-- A sample configuration used by concrete witnesses: path-based routing
with a properly configured domain and the identity slug function. -/
def sampleCfg : SiteCfg :=
  { domain := "freephones.org", useSubdomainMode := false,
    siteURL := "https://freephones.org", slug := fun s => s }

/-- A small sample ranked city table with one duplicate row. -/
def sampleDb : List Row :=
  [⟨"Wayne", "MI"⟩, ⟨"Wayne", "MI"⟩, ⟨"Detroit", "MI"⟩]

/-- C1: for all non-negative `o` and positive `l`, the sequence returned
by `getCitiesForSitemap o l` over a stable ranked source has pairwise
distinct rendered canonical URLs, and is a sublist of the source's ranked
row sequence (records appear only in source ranking order; a record is
ever dropped, never reordered). -/
theorem C1_city_page_nodup_and_ranking_order (cfg : SiteCfg) (db : List Row)
    (o l : Nat) (hl : 0 < l) :
    ((getCitiesForSitemap cfg (some (dbFetch db none)) o l).map (renderUrl cfg)).Nodup
      ∧ List.Sublist (getCitiesForSitemap cfg (some (dbFetch db none)) o l) db := by
  rw [getCitiesForSitemap_eq_slice]
  constructor
  · rw [List.map_take, List.map_drop]
    exact ((List.take_sublist _ _).trans (List.drop_sublist _ _)).nodup
      (dedupAux_nodup cfg _ [])
  · refine ((List.take_sublist _ _).trans (List.drop_sublist _ _)).trans ?_
    exact (dedupAux_sublist cfg _ []).trans (List.take_sublist _ _)

theorem C1_city_page_nodup_and_ranking_order_witness :
    0 < 1 ∧
      (((getCitiesForSitemap sampleCfg (some (dbFetch sampleDb none)) 0 1).map
          (renderUrl sampleCfg)).Nodup
        ∧ List.Sublist (getCitiesForSitemap sampleCfg (some (dbFetch sampleDb none)) 0 1)
            sampleDb) :=
  ⟨by decide, C1_city_page_nodup_and_ranking_order sampleCfg sampleDb 0 1 (by decide)⟩

/-- C2: for every offset and positive limit, `getCitiesForSitemap` returns
exactly the window `[offset, offset + limit)` of the accumulated
deduplicated sequence, hence has length at most `limit`; rows with an
empty name or state abbreviation never appear (they are skipped before
deduplication); and an offset at or beyond the end of the accumulated
data yields the empty sequence. -/
theorem C2_city_page_is_slice_of_dedup (cfg : SiteCfg) (db : List Row)
    (o l : Nat) (hl : 0 < l) :
    getCitiesForSitemap cfg (some (dbFetch db none)) o l
        = ((accumulatedDedup cfg db).drop o).take l
      ∧ (getCitiesForSitemap cfg (some (dbFetch db none)) o l).length ≤ l
      ∧ ((accumulatedDedup cfg db).length ≤ o →
          getCitiesForSitemap cfg (some (dbFetch db none)) o l = [])
      ∧ ∀ r ∈ getCitiesForSitemap cfg (some (dbFetch db none)) o l,
          r.name ≠ "" ∧ r.state_abbr ≠ "" := by
  have hs := getCitiesForSitemap_eq_slice cfg db o l
  refine ⟨hs, ?_, ?_, ?_⟩
  · rw [hs]; exact List.length_take_le _ _
  · intro hoff
    rw [hs, List.drop_eq_nil_of_le hoff, List.take_nil]
  · intro r hr
    rw [hs] at hr
    have hmem : r ∈ accumulatedDedup cfg db :=
      ((List.take_sublist _ _).trans (List.drop_sublist _ _)).mem hr
    exact dedupAux_mem_ne_empty cfg _ [] r hmem

theorem C2_city_page_is_slice_of_dedup_witness :
    0 < 1 ∧
      (getCitiesForSitemap sampleCfg (some (dbFetch sampleDb none)) 0 1
          = ((accumulatedDedup sampleCfg sampleDb).drop 0).take 1
        ∧ (getCitiesForSitemap sampleCfg (some (dbFetch sampleDb none)) 0 1).length ≤ 1
        ∧ ((accumulatedDedup sampleCfg sampleDb).length ≤ 0 →
            getCitiesForSitemap sampleCfg (some (dbFetch sampleDb none)) 0 1 = [])
        ∧ ∀ r ∈ getCitiesForSitemap sampleCfg (some (dbFetch sampleDb none)) 0 1,
            r.name ≠ "" ∧ r.state_abbr ≠ "") :=
  ⟨by decide, C2_city_page_is_slice_of_dedup sampleCfg sampleDb 0 1 (by decide)⟩

/-- C6: a data-source error from batch `e` onwards makes the fetcher
behave exactly as if the source simply ended after the first
`e * pageSize` rows — it stops fetching, keeps what was deduplicated so
far, slices it, and never propagates the error; an absent client and an
empty data source both yield the empty sequence, not an error. -/
theorem C6_error_mid_fetch_degrades_to_partial (cfg : SiteCfg) (db : List Row)
    (e o l : Nat) :
    getCitiesForSitemap cfg (some (dbFetch db (some e))) o l
        = getCitiesForSitemap cfg (some (dbFetch (db.take (e * pageSize)) none)) o l
      ∧ getCitiesForSitemap cfg none o l = []
      ∧ getCitiesForSitemap cfg (some (dbFetch [] none)) o l = [] := by
  refine ⟨?_, rfl, ?_⟩
  · simp only [getCitiesForSitemap]
    rw [fetchLoop_error_eq_trunc]
  · rw [getCitiesForSitemap_eq_slice]
    simp [accumulatedDedup, dedupAux]

theorem ceil_rat_div (t c : Nat) (hc : 0 < c) :
    ⌈(t : ℚ) / (c : ℚ)⌉₊ = (t + c - 1) / c := by
  have hc' : (0 : ℚ) < (c : ℚ) := by exact_mod_cast hc
  refine eq_of_forall_ge_iff (fun n => ?_)
  rw [Nat.ceil_le, div_le_iff₀ hc', Nat.div_le_iff_le_mul_add_pred hc]
  rw [show ((n : ℚ) * (c : ℚ)) = ((n * c : ℕ) : ℚ) by push_cast; ring, Nat.cast_le,
    Nat.mul_comm c n]
  generalize n * c = m
  omega

/-- C3: for every total row count and positive capacity the estimator
returns the true ceiling of the quotient clamped to `[1, 10]`, and in
particular the four scenario values 4, 5, 1 and 10. -/
theorem C3_estimator_is_clamped_ceiling (t c : Nat) (hc : 0 < c) :
    estimateFileCount t c = max 1 (min ⌈(t : ℚ) / (c : ℚ)⌉₊ 10)
      ∧ 1 ≤ estimateFileCount t c ∧ estimateFileCount t c ≤ 10
      ∧ estimateFileCount 40000 10000 = 4
      ∧ estimateFileCount 45000 10000 = 5
      ∧ estimateFileCount 0 10000 = 1
      ∧ estimateFileCount 1000000 10000 = 10 := by
  refine ⟨?_, le_max_left _ _, ?_, by decide, by decide, by decide, by decide⟩
  · rw [ceil_rat_div t c hc]
    rfl
  · exact max_le (by decide) (min_le_right _ _)

theorem C3_estimator_is_clamped_ceiling_witness :
    0 < 10000 ∧
      (estimateFileCount 40000 10000 = max 1 (min ⌈(40000 : ℚ) / (10000 : ℚ)⌉₊ 10)
        ∧ 1 ≤ estimateFileCount 40000 10000 ∧ estimateFileCount 40000 10000 ≤ 10
        ∧ estimateFileCount 40000 10000 = 4
        ∧ estimateFileCount 45000 10000 = 5
        ∧ estimateFileCount 0 10000 = 1
        ∧ estimateFileCount 1000000 10000 = 10) :=
  ⟨by decide, by
    have h := C3_estimator_is_clamped_ceiling 40000 10000 (by decide)
    exact_mod_cast h⟩

/-- C7: when the total city count cannot be obtained — the client is
absent, the count query throws, or the count comes back null — the index
handler uses the fixed default of 4 sitemap files, and every input
produces a file count (between 1 and 10), so no failure propagates. -/
theorem C7_count_failure_uses_default_4 :
    computeFileCount none = 4
      ∧ computeFileCount (some (.error ())) = 4
      ∧ computeFileCount (some (.ok none)) = 4
      ∧ ∀ src : Option CountResult,
          1 ≤ computeFileCount src ∧ computeFileCount src ≤ 10 := by
  refine ⟨rfl, rfl, rfl, ?_⟩
  intro src
  match src with
  | none => exact ⟨by decide, by decide⟩
  | some (.error u) => exact ⟨(by decide : (1 : Nat) ≤ 4), (by decide : (4 : Nat) ≤ 10)⟩
  | some (.ok none) => exact ⟨by decide, by decide⟩
  | some (.ok (some k)) =>
    exact ⟨le_max_left _ _, max_le (by decide) (min_le_right _ _)⟩

/-- C9: for a file count `f` in `[1, 10]` the index document is exactly
one entry for the `main` sitemap followed by one entry per file number
`i ∈ [2, f + 1]`, giving `f + 1` entries in total; every entry carries the
same lastmod stamp (the `today` string the handler computed once); and the
`main` entry occurs exactly once. -/
theorem C9_index_document_shape (u d : String) (f : Nat)
    (h1 : 1 ≤ f) (h2 : f ≤ 10) :
    (sitemapIndexEntries u d f).length = f + 1
      ∧ sitemapIndexEntries u d f
          = (u ++ "/sitemap-main.xml", d) ::
              (List.range' 2 f).map
                (fun i => (u ++ "/sitemap-" ++ toString i ++ ".xml", d))
      ∧ (∀ p ∈ sitemapIndexEntries u d f, p.2 = d)
      ∧ List.count (u ++ "/sitemap-main.xml", d) (sitemapIndexEntries u d f) = 1 := by
  refine ⟨by simp [sitemapIndexEntries], rfl, ?_, ?_⟩
  · intro p hp
    rw [sitemapIndexEntries] at hp
    rcases List.mem_cons.mp hp with rfl | hp
    · rfl
    · obtain ⟨i, _, rfl⟩ := List.mem_map.mp hp
      rfl
  · rw [sitemapIndexEntries, List.count_cons_self]
    have hzero : List.count (u ++ "/sitemap-main.xml", d)
        ((List.range' 2 f).map
          (fun i => (u ++ "/sitemap-" ++ toString i ++ ".xml", d))) = 0 := by
      rw [List.count_eq_zero]
      intro hmem
      obtain ⟨i, hi, heq⟩ := List.mem_map.mp hmem
      have hr := List.mem_range'_1.mp hi
      have hlb : 2 ≤ i := hr.1
      have hub : i < 12 := by omega
      have hlen : (toString i).length ≤ 2 := by
        interval_cases i <;> decide
      have hstr : (u ++ "/sitemap-" ++ toString i ++ ".xml").length
          = (u ++ "/sitemap-main.xml").length :=
        congrArg (fun p => (Prod.fst p).length) heq
      simp only [String.length_append] at hstr
      have e1 : ("/sitemap-" : String).length = 9 := rfl
      have e2 : (".xml" : String).length = 4 := rfl
      have e3 : ("/sitemap-main.xml" : String).length = 17 := rfl
      omega
    rw [hzero]

theorem C9_index_document_shape_witness :
    (1 ≤ 4 ∧ 4 ≤ 10) ∧
      ((sitemapIndexEntries "https://freephones.org" "2026-01-01" 4).length = 4 + 1
        ∧ sitemapIndexEntries "https://freephones.org" "2026-01-01" 4
            = ("https://freephones.org" ++ "/sitemap-main.xml", "2026-01-01") ::
                (List.range' 2 4).map
                  (fun i => ("https://freephones.org" ++ "/sitemap-" ++ toString i
                      ++ ".xml", "2026-01-01"))
        ∧ (∀ p ∈ sitemapIndexEntries "https://freephones.org" "2026-01-01" 4,
            p.2 = "2026-01-01")
        ∧ List.count ("https://freephones.org" ++ "/sitemap-main.xml", "2026-01-01")
            (sitemapIndexEntries "https://freephones.org" "2026-01-01" 4) = 1) :=
  ⟨⟨by decide, by decide⟩,
    C9_index_document_shape "https://freephones.org" "2026-01-01" 4 (by decide) (by decide)⟩

/-- C5 fails as stated: the identifier `2abc` is not a valid integer (and
is a non-numeric identifier other than `main`), yet the handler serves the
chunk-2 city document with status 200 instead of 404, because
`parseInt('2abc', 10)` reads the digit prefix `2`. -/
theorem C5_invalid_chunk_counterexample :
    handleSitemapNum (some "2abc") = .cityChunk 2
      ∧ handleSitemapNum (some "2abc") ≠ .notFound
      ∧ routeStatus (handleSitemapNum (some "2abc")) = 200 := by
  refine ⟨by decide, by decide, by decide⟩

/-- C5 (amended): for a request identifier other than `main`, the handler
responds 404 exactly when `parseInt` applied after the empty-string
fallback to `"2"` yields `NaN` or an integer below 2 (so `"1"`, `"0"`,
`"-3"` and fully non-numeric identifiers get 404, while identifiers with
a digit prefix parsing to at least 2, such as `"2abc"`, serve a chunk
document); every outcome is 404 or 200, never 500. -/
theorem C5_amended_parse_based_404 (s : String) (hs : s ≠ "main") :
    (handleSitemapNum (some s) = .notFound ↔
      (jsParseInt (jsOrDefault (some s)) = none
        ∨ ∃ n, jsParseInt (jsOrDefault (some s)) = some n ∧ n < 2))
      ∧ (routeStatus (handleSitemapNum (some s)) = 404
          ∨ routeStatus (handleSitemapNum (some s)) = 200) := by
  have hmain : ¬ (some s = some "main") := by simpa using hs
  constructor
  · rw [handleSitemapNum, if_neg hmain]
    cases hp : jsParseInt (jsOrDefault (some s)) with
    | none => simp
    | some n =>
      by_cases h2 : n < 2
      · simp [h2]
      · simp [h2]
  · rw [handleSitemapNum, if_neg hmain]
    cases jsParseInt (jsOrDefault (some s)) with
    | none => simp [routeStatus]
    | some n =>
      by_cases h2 : n < 2
      · simp [h2, routeStatus]
      · simp [h2, routeStatus]

theorem C5_amended_parse_based_404_witness :
    ("1" : String) ≠ "main" ∧
      ((handleSitemapNum (some "1") = .notFound ↔
        (jsParseInt (jsOrDefault (some "1")) = none
          ∨ ∃ n, jsParseInt (jsOrDefault (some "1")) = some n ∧ n < 2))
        ∧ (routeStatus (handleSitemapNum (some "1")) = 404
            ∨ routeStatus (handleSitemapNum (some "1")) = 200)) :=
  ⟨by decide, C5_amended_parse_based_404 "1" (by decide)⟩

/-- C8: `getSiteURL` raises exactly on an unset or placeholder domain
(empty, the literal `example.com`, or any domain containing `example`) and
returns `https://{domain}` without raising on every properly configured
domain. -/
theorem C8_getSiteURL_refuses_placeholder (d : String) :
    ((d = "" ∨ d = "example.com" ∨ strContains d "example" = true) →
      getSiteURL d = .error
        ("Domain not properly configured for site. Expected unique domain, got: " ++ d))
      ∧ ((d ≠ "" ∧ d ≠ "example.com" ∧ strContains d "example" = false) →
        getSiteURL d = .ok ("https://" ++ d)) := by
  constructor
  · intro h
    rw [getSiteURL, if_pos]
    rcases h with h | h | h
    · exact Or.inl h
    · exact Or.inr (Or.inl h)
    · exact Or.inr (Or.inr h)
  · intro h
    rw [getSiteURL, if_neg]
    rintro (h1 | h2 | h3)
    · exact h.1 h1
    · exact h.2.1 h2
    · rw [h.2.2] at h3
      exact Bool.false_ne_true h3

theorem C8_getSiteURL_refuses_placeholder_witness :
    (("example.com" = "" ∨ ("example.com" : String) = "example.com"
        ∨ strContains "example.com" "example" = true)
      ∧ getSiteURL "example.com" = .error
          ("Domain not properly configured for site. Expected unique domain, got: "
            ++ "example.com"))
    ∧ ((("mysite.org" : String) ≠ "" ∧ ("mysite.org" : String) ≠ "example.com"
        ∧ strContains "mysite.org" "example" = false)
      ∧ getSiteURL "mysite.org" = .ok ("https://" ++ "mysite.org")) :=
  ⟨⟨by decide, (C8_getSiteURL_refuses_placeholder "example.com").1 (by decide)⟩,
    ⟨by decide, (C8_getSiteURL_refuses_placeholder "mysite.org").2 (by decide)⟩⟩

theorem cityEntriesAux_locs_of_nodup (cfg : SiteCfg) (today : String)
    (cities : List Row) :
    ∀ seen, ((cities.map (renderUrl cfg)).Nodup) →
      (∀ r ∈ cities, renderUrl cfg r ∉ seen) →
      (cityEntriesAux cfg today seen cities).map UrlEntry.loc
        = cities.map (renderUrl cfg) := by
  induction cities with
  | nil => intro seen _ _; simp [cityEntriesAux]
  | cons c cs ih =>
    intro seen hnd hseen
    have hc : renderUrl cfg c ∉ seen := hseen c (List.mem_cons_self _ _)
    rw [cityEntriesAux, if_neg hc, List.map_cons]
    rw [List.map_cons, List.nodup_cons] at hnd
    congr 1
    apply ih _ hnd.2
    intro r hr
    rw [List.mem_cons]
    rintro (h1 | h2)
    · exact hnd.1 (h1 ▸ List.mem_map_of_mem _ hr)
    · exact hseen r (List.mem_cons_of_mem _ hr) h2

theorem join_chunk_slices {α : Type} (U : List α) (L : Nat) :
    ∀ k, ((List.range k).map (fun j => (U.drop (j * L)).take L)).flatten
      = U.take (k * L) := by
  intro k
  induction k with
  | zero => simp
  | succ k ih =>
    rw [List.range_succ, List.map_append, List.flatten_append, ih]
    simp only [List.map_cons, List.map_nil, List.flatten_cons, List.flatten_nil,
      List.append_nil]
    rw [show (k + 1) * L = k * L + L by ring, List.take_add]

theorem chunksJoin_eq (cfg : SiteCfg) (today : String) (db : List Row) (f : Nat) :
    ((List.range f).map
        (fun j => citySitemapLocs cfg today
          (getCitiesForSitemap cfg (some (dbFetch db none))
            (j * urlsPerSitemap) urlsPerSitemap))).flatten
      = ((accumulatedDedup cfg db).map (renderUrl cfg)).take (f * urlsPerSitemap) := by
  have hchunk : ∀ j, citySitemapLocs cfg today
      (getCitiesForSitemap cfg (some (dbFetch db none)) (j * urlsPerSitemap) urlsPerSitemap)
      = (((accumulatedDedup cfg db).map (renderUrl cfg)).drop (j * urlsPerSitemap)).take
          urlsPerSitemap := by
    intro j
    rw [citySitemapLocs, generateCitySitemapEntries, getCitiesForSitemap_eq_slice]
    rw [cityEntriesAux_locs_of_nodup]
    · rw [List.map_take, List.map_drop]
    · rw [List.map_take, List.map_drop]
      exact ((List.take_sublist _ _).trans (List.drop_sublist _ _)).nodup
        (dedupAux_nodup cfg _ [])
    · intro r _ hfalse
      simp at hfalse
  rw [List.map_congr_left (fun j _ => hchunk j)]
  exact join_chunk_slices _ _ f

theorem dedupAux_eq_self (cfg : SiteCfg) (rows : List Row) :
    ∀ seen, (∀ r ∈ rows, r.name ≠ "" ∧ r.state_abbr ≠ "") →
      ((rows.map (renderUrl cfg)).Nodup) →
      (∀ r ∈ rows, renderUrl cfg r ∉ seen) →
      dedupAux cfg seen rows = rows := by
  induction rows with
  | nil => intro seen _ _ _; rfl
  | cons c cs ih =>
    intro seen hne hnd hseen
    have h1 : ¬ (c.name = "" ∨ c.state_abbr = "") := by
      have := hne c (List.mem_cons_self _ _)
      tauto
    have h2 : renderUrl cfg c ∉ seen := hseen c (List.mem_cons_self _ _)
    rw [dedupAux, if_neg h1, if_neg h2]
    rw [List.map_cons, List.nodup_cons] at hnd
    congr 1
    apply ih _ (fun r hr => hne r (List.mem_cons_of_mem _ hr)) hnd.2
    intro r hr
    rw [List.mem_cons]
    rintro (ha | hb)
    · exact hnd.1 (ha ▸ List.mem_map_of_mem _ hr)
    · exact hseen r (List.mem_cons_of_mem _ hr) hb

theorem rowCount_le_fileCount_capacity (n : Nat) (h : n ≤ 50000) :
    n ≤ estimateFileCount n 10000 * 10000 := by
  rw [estimateFileCount]
  omega

/-- C4 (amended): for a stable source of at most `maxPages * pageSize`
(50000) rows — the reach of the fetcher's safety cap — the `<loc>` values
of the emitted city-chunk documents for chunks `2 .. fileCount + 1`,
concatenated in order, are exactly the full deduplicated city URL
sequence, which has no duplicates: every URL appears in exactly one chunk
(no gaps, no overlaps).  Beyond 50000 rows the cap makes the code drop
URLs, so the bound is necessary (see the counterexample). -/
theorem C4_amended_chunks_cover_dedup_exactly (cfg : SiteCfg) (today : String)
    (db : List Row) (hdb : db.length ≤ maxPages * pageSize) :
    ((List.range (computeFileCount (some (.ok (some db.length))))).map
        (fun j => citySitemapLocs cfg today
          (getCitiesForSitemap cfg (some (dbFetch db none))
            (j * urlsPerSitemap) urlsPerSitemap))).flatten
      = (dedupAux cfg [] db).map (renderUrl cfg)
    ∧ ((dedupAux cfg [] db).map (renderUrl cfg)).Nodup := by
  have hacc : accumulatedDedup cfg db = dedupAux cfg [] db := by
    rw [accumulatedDedup, List.take_of_length_le hdb]
  constructor
  · rw [chunksJoin_eq, hacc]
    apply List.take_of_length_le
    rw [List.length_map]
    have hlen : (dedupAux cfg [] db).length ≤ db.length :=
      (dedupAux_sublist cfg db []).length_le
    have h50 : db.length ≤ 50000 := hdb
    have hbound : db.length ≤ estimateFileCount db.length 10000 * 10000 :=
      rowCount_le_fileCount_capacity db.length h50
    exact le_trans hlen hbound
  · exact dedupAux_nodup cfg db []

theorem C4_amended_chunks_cover_dedup_exactly_witness :
    sampleDb.length ≤ maxPages * pageSize ∧
      (((List.range (computeFileCount (some (.ok (some sampleDb.length))))).map
          (fun j => citySitemapLocs sampleCfg "2026-01-01"
            (getCitiesForSitemap sampleCfg (some (dbFetch sampleDb none))
              (j * urlsPerSitemap) urlsPerSitemap))).flatten
        = (dedupAux sampleCfg [] sampleDb).map (renderUrl sampleCfg)
      ∧ ((dedupAux sampleCfg [] sampleDb).map (renderUrl sampleCfg)).Nodup) :=
  ⟨by decide,
    C4_amended_chunks_cover_dedup_exactly sampleCfg "2026-01-01" sampleDb (by decide)⟩

/-- A string of `k` copies of `a`, giving an injective family of city
names. -/
def aName (k : Nat) : String :=
  ⟨List.replicate k 'a'⟩

/-- Row `i` of the counterexample table: a distinct nonempty name and the
state `xx`. -/
def cexRowAt (i : Nat) : Row :=
  ⟨aName (i + 1), "xx"⟩

/-- A ranked city table of 50001 rows with pairwise distinct canonical
URLs: one more row than the fetcher's safety cap can ever reach. -/
def cexDb : List Row :=
  (List.range 50001).map cexRowAt

/-- Path-based configuration with the identity slug used by the
counterexample. -/
def cexCfg : SiteCfg :=
  { domain := "d.com", useSubdomainMode := false,
    siteURL := "https://d.com", slug := fun s => s }

theorem aName_length (k : Nat) : (aName k).length = k := by
  simp [aName, String.length]

theorem cex_render_length (i : Nat) :
    (renderUrl cexCfg (cexRowAt i)).length = 19 + i := by
  have hxx : lowerStr "xx" = "xx" := rfl
  have e1 : ("https://d.com" : String).length = 13 := rfl
  have e2 : ("/" : String).length = 1 := rfl
  have e3 : ("xx" : String).length = 2 := rfl
  simp only [renderUrl, cexCfg, cexRowAt, hxx, Bool.false_eq_true, if_false,
    String.length_append, aName_length, e1, e2, e3]
  omega

theorem cex_render_inj : Function.Injective (fun i => renderUrl cexCfg (cexRowAt i)) := by
  intro i j h
  have hl := congrArg String.length h
  rw [cex_render_length, cex_render_length] at hl
  omega

theorem cex_fields_ne (r : Row) (hr : r ∈ cexDb) :
    r.name ≠ "" ∧ r.state_abbr ≠ "" := by
  obtain ⟨i, _, rfl⟩ := List.mem_map.mp hr
  constructor
  · intro h
    have := congrArg String.length h
    rw [cexRowAt] at this
    simp [aName_length] at this
  · intro h
    have h2 : ("xx" : String) = "" := h
    exact absurd (congrArg String.length h2) (by decide)

theorem cex_map_nodup (n : Nat) :
    (((List.range n).map cexRowAt).map (renderUrl cexCfg)).Nodup := by
  rw [List.map_map]
  exact (List.nodup_range n).map cex_render_inj

theorem cex_dedup_full : dedupAux cexCfg [] cexDb = cexDb := by
  apply dedupAux_eq_self cexCfg cexDb [] cex_fields_ne (cex_map_nodup 50001)
  intro r _ h
  simp at h

theorem cex_take_cap : cexDb.take 50000 = (List.range 50000).map cexRowAt := by
  rw [cexDb, ← List.map_take, List.take_range,
    show min 50000 50001 = 50000 by decide]

theorem cex_accumulated :
    accumulatedDedup cexCfg cexDb = (List.range 50000).map cexRowAt := by
  show dedupAux cexCfg [] (cexDb.take 50000) = (List.range 50000).map cexRowAt
  rw [cex_take_cap]
  apply dedupAux_eq_self cexCfg _ []
  · intro r hr
    apply cex_fields_ne
    obtain ⟨i, hi, rfl⟩ := List.mem_map.mp hr
    exact List.mem_map_of_mem _ (List.mem_range.mpr (lt_trans (List.mem_range.mp hi)
      (by decide)))
  · exact cex_map_nodup 50000
  · intro r _ h
    simp at h

/-- C4 fails as stated: with a stable source of 50001 rows, all with
distinct canonical URLs, the fetcher's 50-batch safety cap stops
accumulation at 50000 rows, so the last city's URL is in the full
deduplicated URL set but appears in none of the emitted chunks — a gap. -/
theorem C4_roundtrip_counterexample :
    renderUrl cexCfg (cexRowAt 50000) ∈ (dedupAux cexCfg [] cexDb).map (renderUrl cexCfg)
      ∧ renderUrl cexCfg (cexRowAt 50000) ∉
        ((List.range (computeFileCount (some (.ok (some cexDb.length))))).map
          (fun j => citySitemapLocs cexCfg "2026-01-01"
            (getCitiesForSitemap cexCfg (some (dbFetch cexDb none))
              (j * urlsPerSitemap) urlsPerSitemap))).flatten := by
  constructor
  · rw [cex_dedup_full, cexDb, List.map_map]
    exact List.mem_map_of_mem _ (List.mem_range.mpr (by decide))
  · rw [chunksJoin_eq, cex_accumulated]
    have hlen : (((List.range 50000).map cexRowAt).map (renderUrl cexCfg)).length
        = 50000 := by
      simp
    have htake : ∀ m, 50000 ≤ m →
        ((((List.range 50000).map cexRowAt).map (renderUrl cexCfg)).take m)
          = ((List.range 50000).map cexRowAt).map (renderUrl cexCfg) := by
      intro m hm
      exact List.take_of_length_le (by rw [hlen]; exact hm)
    rw [htake _ (by
      rw [show cexDb.length = 50001 by simp [cexDb]]
      show 50000 ≤ estimateFileCount 50001 10000 * urlsPerSitemap
      decide)]
    rw [List.map_map]
    intro hmem
    obtain ⟨i, hi, heq⟩ := List.mem_map.mp hmem
    have : i = 50000 := cex_render_inj heq
    subst this
    exact absurd (List.mem_range.mp hi) (by decide)

theorem char_toNat_ofNat {n : Nat} (h : n < 55296) : (Char.ofNat n).toNat = n := by
  rw [Char.ofNat, dif_pos (Or.inl h)]
  rfl

theorem toLower_toNat_of_upper {c : Char} (h1 : 65 ≤ c.toNat) (h2 : c.toNat ≤ 90) :
    (Char.toLower c).toNat = c.toNat + 32 := by
  rw [Char.toLower, if_pos ⟨h1, h2⟩]
  exact char_toNat_ofNat (by omega)

theorem toLower_eq_self_of_ge {c : Char} (h : 97 ≤ c.toNat) : Char.toLower c = c := by
  rw [Char.toLower, if_neg]
  omega

/-- A letter (upper or lower case, by code point). -/
def IsLetter (c : Char) : Prop :=
  (65 ≤ c.toNat ∧ c.toNat ≤ 90) ∨ (97 ≤ c.toNat ∧ c.toNat ≤ 122)

instance (c : Char) : Decidable (IsLetter c) := by
  unfold IsLetter
  infer_instance

theorem toLower_lower_bounds {c : Char} (h : IsLetter c) :
    97 ≤ (Char.toLower c).toNat ∧ (Char.toLower c).toNat ≤ 122 := by
  rcases h with ⟨h1, h2⟩ | ⟨h1, h2⟩
  · rw [toLower_toNat_of_upper h1 h2]
    omega
  · rw [toLower_eq_self_of_ge h1]
    omega

theorem char_ne_of_toNat_ne {c d : Char} (h : c.toNat ≠ d.toNat) : c ≠ d :=
  fun he => h (congrArg Char.toNat he)

theorem takeWhile_all_eq {α : Type} (p : α → Bool) :
    ∀ l : List α, (∀ c ∈ l, p c = true) → l.takeWhile p = l := by
  intro l
  induction l with
  | nil => intro _; rfl
  | cons x xs ih =>
    intro h
    rw [List.takeWhile_cons, h x (List.mem_cons_self _ _)]
    rw [ih (fun c hc => h c (List.mem_cons_of_mem _ hc))]
    exact if_pos rfl

theorem takeWhile_append_stop {α : Type} (p : α → Bool) (y : α) (ys : List α)
    (hy : p y = false) :
    ∀ xs : List α, (∀ c ∈ xs, p c = true) →
      (xs ++ y :: ys).takeWhile p = xs := by
  intro xs
  induction xs with
  | nil => intro _; simp [List.takeWhile_cons, hy]
  | cons x xs ih =>
    intro h
    rw [List.cons_append, List.takeWhile_cons, h x (List.mem_cons_self _ _)]
    rw [ih (fun c hc => h c (List.mem_cons_of_mem _ hc))]
    exact if_pos rfl

theorem replaceFirst_at_sep (d : List Char) :
    ∀ pre : List Char, '.' ∉ pre →
      replaceFirst ('.' :: d) (pre ++ '.' :: d) = pre := by
  intro pre
  induction pre with
  | nil =>
    intro _
    rw [List.nil_append, replaceFirst,
      if_pos (List.isPrefixOf_iff_prefix.mpr (List.prefix_refl _))]
    exact List.drop_length _
  | cons c t ih =>
    intro hmem
    have hc : ('.' == c) = false :=
      beq_eq_false_iff_ne.mpr (fun h => hmem (h ▸ List.mem_cons_self _ _))
    rw [List.cons_append, replaceFirst, List.isPrefixOf_cons₂, hc, Bool.false_and,
      if_neg (by simp)]
    rw [ih (fun h => hmem (List.mem_cons_of_mem _ h))]

theorem lastIdx_eq_none (c : Char) :
    ∀ l : List Char, c ∉ l → lastIdx c l = none := by
  intro l
  induction l with
  | nil => intro _; rfl
  | cons a t ih =>
    intro hmem
    rw [lastIdx, ih (fun h => hmem (List.mem_cons_of_mem _ h))]
    rw [if_neg (fun h => hmem (by rw [← h]; exact List.mem_cons_self _ _))]

theorem lastIdx_append_sep (ys : List Char) (h : '-' ∉ ys) :
    ∀ xs : List Char, lastIdx '-' (xs ++ '-' :: ys) = some xs.length := by
  intro xs
  induction xs with
  | nil =>
    rw [List.nil_append, lastIdx, lastIdx_eq_none '-' ys h, if_pos rfl]
    rfl
  | cons a t ih =>
    rw [List.cons_append, lastIdx, ih]
    rfl

/-- C10: with subdomain mode enabled, parsing the hostname of a built
city subdomain URL recovers exactly the city slug and the lower-cased
two-letter state abbreviation.  The slug is a nonempty lower-case URL
slug (no dot, colon or slash), the state abbreviation is two letters, and
the configured domain is a lower-case domain name. -/
theorem C10_subdomain_url_parse_roundtrip (cfg : SiteCfg) (slug st : String)
    (hmode : cfg.useSubdomainMode = true)
    (hslug_ne : slug ≠ "")
    (hslug : ∀ c ∈ slug.data, Char.toLower c = c ∧ c ≠ '.' ∧ c ≠ ':' ∧ c ≠ '/')
    (hst_len : st.data.length = 2)
    (hst : ∀ c ∈ st.data, IsLetter c)
    (hdom : ∀ c ∈ cfg.domain.data, Char.toLower c = c ∧ c ≠ ':' ∧ c ≠ '/') :
    parseSubdomain cfg (urlHostname (getCitySubdomainURL cfg slug st))
      = some ⟨slug, lowerStr st⟩ := by
  have e46 : ('.').toNat = 46 := rfl
  have e58 : (':').toNat = 58 := rfl
  have e47 : ('/').toNat = 47 := rfl
  have e45 : ('-').toNat = 45 := rfl
  have hstL : ∀ c ∈ st.data.map Char.toLower, 97 ≤ c.toNat ∧ c.toNat ≤ 122 := by
    intro c hc
    obtain ⟨c0, hc0, rfl⟩ := List.mem_map.mp hc
    exact toLower_lower_bounds (hst c0 hc0)
  have hall : ∀ c ∈ slug.data ++ '-' :: (st.data.map Char.toLower ++ '.' :: cfg.domain.data),
      Char.toLower c = c ∧ c ≠ ':' ∧ c ≠ '/' := by
    intro c hc
    rcases List.mem_append.mp hc with hc | hc
    · exact ⟨(hslug c hc).1, (hslug c hc).2.2.1, (hslug c hc).2.2.2⟩
    · rcases List.mem_cons.mp hc with rfl | hc
      · exact ⟨by decide, by decide, by decide⟩
      · rcases List.mem_append.mp hc with hc | hc
        · have hb := hstL c hc
          exact ⟨toLower_eq_self_of_ge hb.1,
            char_ne_of_toNat_ne (by rw [e58]; omega),
            char_ne_of_toNat_ne (by rw [e47]; omega)⟩
        · rcases List.mem_cons.mp hc with rfl | hc
          · exact ⟨by decide, by decide, by decide⟩
          · exact hdom c hc
  have hbranch : getCitySubdomainURL cfg slug st
      = "https://" ++ slug ++ "-" ++ lowerStr st ++ "." ++ cfg.domain ++ "/" := by
    rw [getCitySubdomainURL, hmode]
    rfl
  have hud : (getCitySubdomainURL cfg slug st).data
      = "https://".data ++
          ((slug.data ++ '-' :: (st.data.map Char.toLower ++ '.' :: cfg.domain.data))
            ++ ['/']) := by
    rw [hbranch]
    simp [String.data_append, lowerStr, List.append_assoc]
  have hhostd : (urlHostname (getCitySubdomainURL cfg slug st)).data
      = slug.data ++ '-' :: (st.data.map Char.toLower ++ '.' :: cfg.domain.data) := by
    have hdef : (urlHostname (getCitySubdomainURL cfg slug st)).data
        = ((getCitySubdomainURL cfg slug st).data.drop 8).takeWhile (· ≠ '/') := rfl
    rw [hdef, hud, List.drop_left' (show ("https://".data).length = 8 from rfl)]
    apply takeWhile_append_stop
    · simp
    · intro c hc
      simp only [decide_eq_true_eq]
      exact (hall c hc).2.2
  have hcolon : (slug.data ++ '-' :: (st.data.map Char.toLower ++ '.' :: cfg.domain.data)).takeWhile
      (· ≠ ':') = slug.data ++ '-' :: (st.data.map Char.toLower ++ '.' :: cfg.domain.data) := by
    apply takeWhile_all_eq
    intro c hc
    simp only [decide_eq_true_eq]
    exact (hall c hc).2.1
  have hlowermap : (slug.data ++ '-' :: (st.data.map Char.toLower ++ '.' :: cfg.domain.data)).map
      Char.toLower = slug.data ++ '-' :: (st.data.map Char.toLower ++ '.' :: cfg.domain.data) :=
    (List.map_congr_left (fun c hc => (hall c hc).1)).trans (List.map_id _)
  have hassoc : slug.data ++ '-' :: (st.data.map Char.toLower ++ '.' :: cfg.domain.data)
      = (slug.data ++ '-' :: st.data.map Char.toLower) ++ '.' :: cfg.domain.data := by
    simp [List.append_assoc]
  have hsuf : ('.' :: cfg.domain.data).isSuffixOf
      (slug.data ++ '-' :: (st.data.map Char.toLower ++ '.' :: cfg.domain.data)) = true :=
    List.isSuffixOf_iff_suffix.mpr ⟨slug.data ++ '-' :: st.data.map Char.toLower, hassoc.symm⟩
  have hpre_nodot : '.' ∉ slug.data ++ '-' :: st.data.map Char.toLower := by
    intro hc
    rcases List.mem_append.mp hc with hc | hc
    · exact (hslug _ hc).2.1 rfl
    · rcases List.mem_cons.mp hc with h | hc
      · exact absurd h (by decide)
      · have hb := hstL _ hc
        rw [e46] at hb
        omega
  have hrep : replaceFirst ('.' :: cfg.domain.data)
      (slug.data ++ '-' :: (st.data.map Char.toLower ++ '.' :: cfg.domain.data))
      = slug.data ++ '-' :: st.data.map Char.toLower := by
    rw [hassoc]
    exact replaceFirst_at_sep _ _ hpre_nodot
  have hdash : '-' ∈ slug.data ++ '-' :: st.data.map Char.toLower :=
    List.mem_append.mpr (Or.inr (List.mem_cons_self _ _))
  have hwww : ¬ (slug.data ++ '-' :: st.data.map Char.toLower = "www".data
      ∨ slug.data ++ '-' :: st.data.map Char.toLower = []) := by
    rintro (h | h)
    · rw [h] at hdash
      exact absurd hdash (by decide)
    · rw [h] at hdash
      exact absurd hdash (by decide)
  have hnodash : '-' ∉ st.data.map Char.toLower := by
    intro hc
    have hb := hstL _ hc
    rw [e45] at hb
    omega
  have hlast : lastIdx '-' (slug.data ++ '-' :: st.data.map Char.toLower)
      = some slug.data.length :=
    lastIdx_append_sep _ hnodash slug.data
  have htake : (slug.data ++ '-' :: st.data.map Char.toLower).take slug.data.length
      = slug.data := List.take_left _ _
  have hdropm : (slug.data ++ '-' :: st.data.map Char.toLower).drop (slug.data.length + 1)
      = st.data.map Char.toLower := by
    rw [show slug.data ++ '-' :: st.data.map Char.toLower
        = (slug.data ++ ['-']) ++ st.data.map Char.toLower by simp]
    exact List.drop_left' (by simp)
  have hlen2 : (st.data.map Char.toLower).length = 2 := by
    rw [List.length_map, hst_len]
  have hmap2 : (st.data.map Char.toLower).map Char.toLower = st.data.map Char.toLower :=
    (List.map_congr_left (fun c hc => toLower_eq_self_of_ge (hstL c hc).1)).trans
      (List.map_id _)
  rw [parseSubdomain, hmode]
  rw [Bool.not_true, if_neg Bool.false_ne_true]
  rw [hhostd, hcolon, hlowermap]
  simp only [hsuf, Bool.not_true, Bool.false_eq_true, if_false]
  simp only [hrep]
  rw [if_neg hwww]
  simp only [hlast, htake, hdropm, hlen2, hmap2]
  rw [if_neg (fun h => h rfl)]
  rfl

/-- A subdomain-mode configuration used by the round-trip witness. -/
def subCfg : SiteCfg :=
  { domain := "free-government-phone.org", useSubdomainMode := true,
    siteURL := "https://free-government-phone.org", slug := fun s => s }

theorem C10_subdomain_url_parse_roundtrip_witness :
    (subCfg.useSubdomainMode = true
      ∧ ("wayne" : String) ≠ ""
      ∧ (∀ c ∈ ("wayne" : String).data, Char.toLower c = c ∧ c ≠ '.' ∧ c ≠ ':' ∧ c ≠ '/')
      ∧ ("MI" : String).data.length = 2
      ∧ (∀ c ∈ ("MI" : String).data, IsLetter c)
      ∧ (∀ c ∈ subCfg.domain.data, Char.toLower c = c ∧ c ≠ ':' ∧ c ≠ '/'))
    ∧ parseSubdomain subCfg (urlHostname (getCitySubdomainURL subCfg "wayne" "MI"))
        = some ⟨"wayne", lowerStr "MI"⟩ :=
  ⟨⟨by decide, by decide, by decide, by decide, by decide, by decide⟩,
    C10_subdomain_url_parse_roundtrip subCfg "wayne" "MI" (by decide) (by decide)
      (by decide) (by decide) (by decide) (by decide)⟩
